import Mathlib

/-!
Shallow embedding of the CQT_Charge core: the rate-limited session controller
(`client.py`, class `ChargeClientController`) and the polling listener
(`listener.py`, class `ChargeListener`), together with verified properties.

Conventions of the embedding:
* The event-loop clock is modelled by `ℚ` (the source uses the loop's float
  clock); `asyncio.sleep d` advances the clock by exactly `d`.
* Exceptions are modelled by `Except Unit`; the payload of an exception is
  irrelevant to every property below.
* Hooks are identified by natural numbers (Python compares them by identity);
  the behaviour of a hook when invoked is an explicit `HookOutcome` argument.
* Station state payloads are opaque and modelled by `ℕ`; Python dicts keyed by
  station id become association lists (`List (ℕ × _)` with `List.lookup`).
* `asyncio.create_task` does not run its argument synchronously: operations
  that create tasks return the list of tasks they scheduled, in creation
  order, next to the state they mutated synchronously.
-/

namespace CQTCharge

/-! ## client.py : ChargeClientController -/

/-- Observable steps of `ChargeClientController`, in source order: the rate
limiter acquires its `asyncio.Lock`, evaluates the window test, possibly
sleeps, evaluates the minimum-gap test, possibly sleeps, records the request
time and releases the lock; `ensure_login` reads the token and possibly runs
the login exchange; the upstream HTTP call follows. -/
inductive Ev
  | lockAcquire
  | lockRelease
  | checkWindow
  | checkGap
  | sleep (d : ℚ)
  | recordRequest (t : ℚ)
  | checkToken
  | loginExchange
  | upstreamCall
deriving DecidableEq

/-- State of a `ChargeClientController`: the session token of the wrapped
`ChargeClient` (`None` or a live session), `login_time`, the sliding window
`request_times`, and `error_count`. -/
structure CtrlState where
  token : Option Unit
  login_time : ℚ
  request_times : List ℚ
  error_count : ℕ
deriving DecidableEq

def RELOGIN_INTERVAL : ℚ := 24 * 60 * 60

def MIN_REQUEST_INTERVAL : ℚ := 5

def MAX_REQUESTS_PER_MINUTE : ℕ := 15

/-- `ChargeClientController.__init__`: no token, `login_time = -RELOGIN_INTERVAL`,
empty window, zero errors. -/
def initController : CtrlState :=
  { token := none
    login_time := -RELOGIN_INTERVAL
    request_times := []
    error_count := 0 }

/-- Line 85-87 of `client.py`: drop window entries older than one minute. -/
def pruneWindow (times : List ℚ) (c : ℚ) : List ℚ :=
  times.filter (fun t => decide (c - t < 60))

/-- Line 88-90: when the pruned window is full, sleep until the oldest entry
ages out; the local variable `current_time` is not refreshed afterwards. -/
def windowSleep (pruned : List ℚ) (c : ℚ) : ℚ :=
  if MAX_REQUESTS_PER_MINUTE ≤ pruned.length then 60 - (c - pruned.headI) else 0

/-- Line 91-96: when the most recent entry is closer than
`MIN_REQUEST_INTERVAL`, sleep for the remainder (computed from the stale
`current_time` read before any sleeping). -/
def gapSleep (pruned : List ℚ) (c : ℚ) : ℚ :=
  match pruned.getLast? with
  | none => 0
  | some latest =>
      if c - latest < MIN_REQUEST_INTERVAL then MIN_REQUEST_INTERVAL - (c - latest) else 0

/-- `ChargeClientController.ensure_rate_limit`, entered while the clock reads
`c`. The whole body runs inside `async with self.lock`; the only suspension
points are the two sleeps, so the body is atomic up to clock advance. Returns
the new state, the clock value at exit (line 97 re-reads the clock, which has
advanced by the sleeps) and the emitted event trace. -/
def ensure_rate_limit (s : CtrlState) (c : ℚ) : CtrlState × ℚ × List Ev :=
  let pruned := pruneWindow s.request_times c
  let w := windowSleep pruned c
  let g := gapSleep pruned c
  let t := c + w + g
  ({ s with request_times := pruned ++ [t] }, t,
    [Ev.lockAcquire, Ev.checkWindow]
      ++ (if MAX_REQUESTS_PER_MINUTE ≤ pruned.length then [Ev.sleep w] else [])
      ++ [Ev.checkGap]
      ++ (if 0 < g then [Ev.sleep g] else [])
      ++ [Ev.recordRequest t, Ev.lockRelease])

/-- `ChargeClientController.ensure_login` at clock `c`: login when there is no
token, or when the session is older than `RELOGIN_INTERVAL`; otherwise a no-op
beyond reading the token. A successful login installs a token and stamps
`login_time`. -/
def ensure_login (s : CtrlState) (c : ℚ) : CtrlState × List Ev :=
  match s.token with
  | none => ({ s with token := some (), login_time := c }, [Ev.checkToken, Ev.loginExchange])
  | some _ =>
      if RELOGIN_INTERVAL < c - s.login_time then
        ({ s with token := some (), login_time := c }, [Ev.checkToken, Ev.loginExchange])
      else (s, [Ev.checkToken])

/-- `ChargeClientController.get_station_info`: rate limit, then login, then
the upstream fetch whose result (`.ok data` or `.error ()`) is the `outcome`
argument. On success the consecutive-error counter resets; on failure it is
incremented, the token is cleared once the counter is at least 5, and the
error is re-raised (returned as the final `Except`). -/
def get_station_info (s : CtrlState) (c : ℚ) (outcome : Except Unit ℕ) :
    CtrlState × ℚ × List Ev × Except Unit ℕ :=
  let r1 := ensure_rate_limit s c
  let r2 := ensure_login r1.1 r1.2.1
  let evs := r1.2.2 ++ r2.2 ++ [Ev.upstreamCall]
  match outcome with
  | .ok d => ({ r2.1 with error_count := 0 }, r1.2.1, evs, .ok d)
  | .error e =>
      let ec := r2.1.error_count + 1
      ({ r2.1 with
          error_count := ec
          token := if 5 ≤ ec then none else r2.1.token },
        r1.2.1, evs, .error e)

/-- `ChargeClientController.get_stations`: note the source calls
`ensure_login` first and `ensure_rate_limit` second. -/
def get_stations (s : CtrlState) (c : ℚ) : CtrlState × ℚ × List Ev :=
  let r1 := ensure_login s c
  let r2 := ensure_rate_limit r1.1 c
  (r2.1, r2.2.1, r1.2 ++ r2.2.2 ++ [Ev.upstreamCall])

/-- Successive calls of `ensure_rate_limit`, each entered at the given clock
value; the lock serialises the bodies (see `c9` below), so a sequence of
callers is a sequence of completed bodies. Returns the recorded begin times in
order. -/
def runRateLimit (s : CtrlState) : List ℚ → List ℚ
  | [] => []
  | c :: cs =>
      let r := ensure_rate_limit s c
      r.2.1 :: runRateLimit r.1 cs

/-- Two consecutive requests begin at least `MIN_REQUEST_INTERVAL` apart. -/
def Gap (a b : ℚ) : Prop := a + MIN_REQUEST_INTERVAL ≤ b

instance : IsTrans ℚ Gap :=
  ⟨fun _ _ _ hab hbc => by
    unfold Gap MIN_REQUEST_INTERVAL at *
    linarith⟩

instance (a b : ℚ) : Decidable (Gap a b) := by unfold Gap; infer_instance

def isLockAcquire : Ev → Bool
  | .lockAcquire => true
  | _ => false

def isLockRelease : Ev → Bool
  | .lockRelease => true
  | _ => false

def isCheckWindow : Ev → Bool
  | .checkWindow => true
  | _ => false

def isCheckGap : Ev → Bool
  | .checkGap => true
  | _ => false

/-- The three phase markers of one controller request: taking the rate-limit
lock, reading the token, and the upstream call. -/
def isPhase : Ev → Bool
  | .lockAcquire => true
  | .checkToken => true
  | .upstreamCall => true
  | _ => false

/-! ## listener.py : ChargeListener -/

/-- `_StationRecord`: the cached bulk station data with its timestamp. -/
structure StationRecord where
  data : List (ℕ × ℕ)
  time : ℚ
deriving DecidableEq

/-- State of a `ChargeListener`: the registry `stations` (name to id, fixed at
construction), the per-station hook lists, whether `_refresh_task` is set, the
cached `station_status`, and whether an `on_error` sink was configured. -/
structure ListenerState where
  stations : List (String × ℕ)
  hooks : List (ℕ × List ℕ)
  refresh_task : Bool
  station_status : Option StationRecord
  on_error : Bool
deriving DecidableEq

def POLL_INTERVAL : ℚ := 15

def EXPIRE_TIME : ℚ := 30

/-- The hook list of one station id (empty for an unknown id; callers inside
the listener only use ids drawn from the registry, for which `__init__`
created an entry). -/
def hooksOf (s : ListenerState) (sid : ℕ) : List ℕ :=
  (s.hooks.lookup sid).getD []

/-- Point update of the hook table at one station id. -/
def updateHooks (hooks : List (ℕ × List ℕ)) (sid : ℕ) (f : List ℕ → List ℕ) :
    List (ℕ × List ℕ) :=
  hooks.map (fun p => if p.1 = sid then (p.1, f p.2) else p)

/-- `any(self.hooks.values())`: some station has a non-empty hook list. -/
def anyHooks (s : ListenerState) : Bool :=
  s.hooks.any (fun p => !p.2.isEmpty)

/-- What a hook does when invoked: return a value whose truthiness is `b`, or
raise. -/
inductive HookOutcome
  | ret (b : Bool)
  | raiseExc
deriving DecidableEq

/-- Tasks the listener spawns with `asyncio.create_task`. -/
inductive ListenerTask
  | addHook (sid hook : ℕ)
  | removeHook (sid hook : ℕ)
  | handleHook (sid hook : ℕ) (data : ℕ) (prev : Option ℕ)
  | refreshLoop
deriving DecidableEq

/-- `ChargeListener._call_hook`: invoke the hook; a raise is caught at this
boundary, logged and reported through `on_error` when that sink is set, and
counts as not finished. Returns (finished, error reported). -/
def call_hook (on_error : Bool) (outcome : HookOutcome) : Bool × Bool :=
  match outcome with
  | .ret b => (b, false)
  | .raiseExc => (false, on_error)

/-- `ChargeListener._handle_hook`: under the per-station lock, raise for an
unknown station id, skip a hook that is no longer registered, otherwise invoke
it and remove it when it reports finished. Returns the new state, whether the
hook was invoked, and whether an error was reported. -/
def handle_hook (s : ListenerState) (sid hook : ℕ) (outcome : HookOutcome) :
    Except Unit (ListenerState × Bool × Bool) :=
  match s.hooks.lookup sid with
  | none => .error ()
  | some hlist =>
      if hook ∈ hlist then
        if (call_hook s.on_error outcome).1 then
          .ok ({ s with hooks := updateHooks s.hooks sid (fun l => l.erase hook) },
            true, (call_hook s.on_error outcome).2)
        else .ok (s, true, (call_hook s.on_error outcome).2)
      else .ok (s, false, false)

/-- `ChargeListener._add_hook`: append the hook unless already present. -/
def add_hook (s : ListenerState) (sid hook : ℕ) : ListenerState :=
  { s with hooks := updateHooks s.hooks sid (fun l => if hook ∈ l then l else l ++ [hook]) }

/-- `ChargeListener._remove_hook`: remove the hook if present. -/
def remove_hook (s : ListenerState) (sid hook : ℕ) : ListenerState :=
  { s with hooks := updateHooks s.hooks sid (fun l => l.erase hook) }

/-- `ChargeListener.register_hook` at clock `now`: raise for an unknown name;
otherwise schedule `_add_hook`, schedule an immediate `_handle_hook` with the
cached data and no previous state when the cache exists, covers the station
and is younger than `EXPIRE_TIME`, and start the refresh task when none runs.
Returns the synchronously updated state and the scheduled tasks in creation
order. -/
def register_hook (s : ListenerState) (now : ℚ) (name : String) (hook : ℕ) :
    Except Unit (ListenerState × List ListenerTask) :=
  match s.stations.lookup name with
  | none => .error ()
  | some sid =>
      let immediate : List ListenerTask :=
        match s.station_status with
        | none => []
        | some rec =>
            match rec.data.lookup sid with
            | none => []
            | some d =>
                if now - rec.time < EXPIRE_TIME then [ListenerTask.handleHook sid hook d none]
                else []
      let started : ListenerState × List ListenerTask :=
        if s.refresh_task then (s, []) else ({ s with refresh_task := true }, [ListenerTask.refreshLoop])
      .ok (started.1, [ListenerTask.addHook sid hook] ++ immediate ++ started.2)

/-- `ChargeListener.unregister_hook`: raise for an unknown name; otherwise
schedule `_remove_hook` when the hook is currently registered (the removal
itself is asynchronous), then cancel and clear the refresh task only when
every hook list is already empty at this moment. -/
def unregister_hook (s : ListenerState) (name : String) (hook : ℕ) :
    Except Unit (ListenerState × List ListenerTask) :=
  match s.stations.lookup name with
  | none => .error ()
  | some sid =>
      .ok ((if anyHooks s then s else { s with refresh_task := false }),
        (if hook ∈ hooksOf s sid then [ListenerTask.removeHook sid hook] else []))

/-- Result of one bulk fetch `_request_station_status` (already re-indexed by
station id), or its failure. -/
inductive FetchOutcome
  | ok (data : List (ℕ × ℕ))
  | fail
deriving DecidableEq

/-- The dispatch loop of one successful poll iteration (lines 150-167 of
`listener.py`): walk the hook table in order; skip, with a warning, stations
absent from the fresh data; for each hook of a covered station create one
`_handle_hook` task carrying the fresh per-station slice and the slice of the
previous snapshot. The expression
`prev_record.data[station_id] if prev_record else None` is unguarded: when a
previous snapshot exists but lacks a station id that is present in the fresh
data and has at least one hook, it raises `KeyError` on the first hook of
that station. Returns the tasks created before that point and whether the
raise happened. -/
def spawn_hook_tasks (data : List (ℕ × ℕ)) (prev : Option StationRecord) :
    List (ℕ × List ℕ) → List ListenerTask × Bool
  | [] => ([], false)
  | p :: rest =>
      match data.lookup p.1 with
      | none => spawn_hook_tasks data prev rest
      | some d =>
          match prev with
          | none =>
              let r := spawn_hook_tasks data prev rest
              (p.2.map (fun h => ListenerTask.handleHook p.1 h d none) ++ r.1, r.2)
          | some r0 =>
              match r0.data.lookup p.1 with
              | some pd =>
                  let r := spawn_hook_tasks data prev rest
                  (p.2.map (fun h => ListenerTask.handleHook p.1 h d (some pd)) ++ r.1, r.2)
              | none =>
                  if p.2.isEmpty then spawn_hook_tasks data prev rest
                  else ([], true)

/-- One iteration of `ChargeListener._refresh_station_status_task` at clock
`now`: exit cleanly (clearing the task handle) when no hooks remain anywhere;
on a failed fetch report and retry without touching the cache; on success
replace the cache (line 147, before the dispatch loop) and run the dispatch
loop. When the dispatch loop raises its unguarded `KeyError` (see
`spawn_hook_tasks`), the exception escapes the
`except asyncio.CancelledError` handler, so the poll task dies: the loop does
not continue and the final `self._refresh_task = None` is skipped — the
handle stays set. Returns the new state, the spawned tasks, and whether the
loop continues. -/
def refresh_iter (s : ListenerState) (now : ℚ) (fetch : FetchOutcome) :
    ListenerState × List ListenerTask × Bool :=
  if anyHooks s then
    match fetch with
    | .fail => (s, [], true)
    | .ok data =>
        let r := spawn_hook_tasks data s.station_status s.hooks
        ({ s with station_status := some ⟨data, now⟩ }, r.1, !r.2)
  else ({ s with refresh_task := false }, [], false)

/-- Freshness test of the cached record at clock `now`. -/
def isFresh (s : ListenerState) (now : ℚ) : Bool :=
  match s.station_status with
  | none => false
  | some rec => decide (now - rec.time < EXPIRE_TIME)

/-- `ChargeListener.get_station_status` at clock `now`, with the outcome of
the bulk fetch it would perform given as `fetch`: return the cached data while
fresh; otherwise fetch, and only on success replace the cache. -/
def get_station_status (s : ListenerState) (now : ℚ) (fetch : FetchOutcome) :
    ListenerState × Except Unit (List (ℕ × ℕ)) :=
  match s.station_status with
  | some rec =>
      if now - rec.time < EXPIRE_TIME then (s, .ok rec.data)
      else
        match fetch with
        | .fail => (s, .error ())
        | .ok d => ({ s with station_status := some ⟨d, now⟩ }, .ok d)
  | none =>
      match fetch with
      | .fail => (s, .error ())
      | .ok d => ({ s with station_status := some ⟨d, now⟩ }, .ok d)

/-- The primitive operations that mutate a hook list: a dispatch of one hook
(with its outcome), the body of `_add_hook`, the body of `_remove_hook`. Each
runs under the per-station lock, hence atomically. -/
inductive LOp
  | handle (sid hook : ℕ) (outcome : HookOutcome)
  | add (sid hook : ℕ)
  | remove (sid hook : ℕ)
deriving DecidableEq

def stepOp (s : ListenerState) : LOp → ListenerState
  | .handle sid h o =>
      match handle_hook s sid h o with
      | .ok r => r.1
      | .error _ => s
  | .add sid h => add_hook s sid h
  | .remove sid h => remove_hook s sid h

/-- Whether executing `op` in state `s` invokes hook `hook` of station `sid`. -/
def invokes (s : ListenerState) (op : LOp) (sid hook : ℕ) : Bool :=
  match op with
  | .handle sid2 h2 o =>
      sid2 == sid && h2 == hook &&
        (match handle_hook s sid2 h2 o with
         | .ok r => r.2.1
         | .error _ => false)
  | _ => false

/-- Whether hook `hook` of station `sid` is invoked at any point while the
operation list runs from state `s`. -/
def invokedDuring (s : ListenerState) (sid hook : ℕ) : List LOp → Bool
  | [] => false
  | op :: rest => invokes s op sid hook || invokedDuring (stepOp s op) sid hook rest

/-! ## Helper lemmas about the hook table -/

lemma lookup_cons_self {β : Type _} (a : ℕ) (v : β) (rest : List (ℕ × β)) :
    ((a, v) :: rest).lookup a = some v := by
  simp [List.lookup_cons]

lemma lookup_cons_ne {β : Type _} {k a : ℕ} (h : k ≠ a) (v : β) (rest : List (ℕ × β)) :
    ((a, v) :: rest).lookup k = rest.lookup k := by
  have hb : (k == a) = false := by simpa using h
  simp [List.lookup_cons, hb]

lemma lookup_updateHooks (l : List (ℕ × List ℕ)) (sid : ℕ) (f : List ℕ → List ℕ)
    (k : ℕ) :
    (updateHooks l sid f).lookup k = if k = sid then (l.lookup k).map f else l.lookup k := by
  induction l with
  | nil => simp [updateHooks]
  | cons p rest ih =>
      obtain ⟨a, v⟩ := p
      by_cases ha : a = sid
      · subst ha
        have hstep : updateHooks ((a, v) :: rest) a f = (a, f v) :: updateHooks rest a f := by
          simp [updateHooks]
        rw [hstep]
        by_cases hk : k = a
        · subst hk
          simp [lookup_cons_self]
        · rw [lookup_cons_ne hk, if_neg hk, lookup_cons_ne hk, ih, if_neg hk]
      · have hstep : updateHooks ((a, v) :: rest) sid f =
            (a, v) :: updateHooks rest sid f := by
          simp [updateHooks, ha]
        rw [hstep]
        by_cases hk : k = a
        · subst hk
          rw [if_neg ha, lookup_cons_self, lookup_cons_self]
        · rw [lookup_cons_ne hk, lookup_cons_ne hk, ih]

lemma hooksOf_update (s : ListenerState) (sid : ℕ) (f : List ℕ → List ℕ) (k : ℕ) :
    hooksOf { s with hooks := updateHooks s.hooks sid f } k =
      if k = sid then ((s.hooks.lookup k).map f).getD [] else hooksOf s k := by
  simp only [hooksOf, lookup_updateHooks]
  split <;> rfl

lemma not_mem_hooksOf_update {s : ListenerState} {sid k hook : ℕ}
    {f : List ℕ → List ℕ} (h : hook ∉ hooksOf s k)
    (hf : ∀ l, hook ∉ l → hook ∉ f l) :
    hook ∉ hooksOf { s with hooks := updateHooks s.hooks sid f } k := by
  rw [hooksOf_update]
  split
  · cases hl : s.hooks.lookup k with
    | none => simp
    | some l =>
        have hxl : hook ∉ l := by
          rw [hooksOf, hl] at h
          simpa using h
        simpa using hf l hxl
  · exact h

lemma not_mem_erase_of_not_mem {hook x : ℕ} {l : List ℕ} (h : hook ∉ l) :
    hook ∉ l.erase x :=
  fun hm => h ((l.erase_sublist x).mem hm)

/-- A dispatch of a hook that is not registered for its station either raises
(unknown station) or does nothing: the state is untouched and the hook is not
invoked. -/
lemma handle_hook_not_mem {s : ListenerState} {sid hook : ℕ} {o : HookOutcome}
    (h : hook ∉ hooksOf s sid) :
    handle_hook s sid hook o = .error () ∨ handle_hook s sid hook o = .ok (s, false, false) := by
  unfold handle_hook
  cases hl : s.hooks.lookup sid with
  | none => exact Or.inl rfl
  | some hlist =>
      have hx : hook ∉ hlist := by
        rw [hooksOf, hl] at h
        simpa using h
      exact Or.inr (by simp [hx])

lemma not_mem_hooksOf_update_ne {s : ListenerState} {sid k hook : ℕ}
    {f : List ℕ → List ℕ} (h : hook ∉ hooksOf s k) (hne : k ≠ sid) :
    hook ∉ hooksOf { s with hooks := updateHooks s.hooks sid f } k := by
  rw [hooksOf_update, if_neg hne]
  exact h

/-- The state reached by a non-raising dispatch is either unchanged or has the
dispatched hook erased from its station's list. -/
lemma handle_hook_state {s : ListenerState} {sid2 h2 : ℕ} {o : HookOutcome}
    {r : ListenerState × Bool × Bool} (hh : handle_hook s sid2 h2 o = .ok r) :
    r.1 = s ∨ r.1 = { s with hooks := updateHooks s.hooks sid2 (fun l => l.erase h2) } := by
  unfold handle_hook at hh
  split at hh
  · exact absurd hh (by simp)
  · split at hh
    · split at hh
      · right
        simp only [Except.ok.injEq] at hh
        rw [← hh]
      · left
        simp only [Except.ok.injEq] at hh
        rw [← hh]
    · left
      simp only [Except.ok.injEq] at hh
      rw [← hh]

/-- Executing any hook-table operation other than re-adding this very hook
preserves its absence from the hook list of its station. -/
lemma stepOp_not_mem {s : ListenerState} {op : LOp} {sid hook : ℕ}
    (h : hook ∉ hooksOf s sid) (hop : op ≠ .add sid hook) :
    hook ∉ hooksOf (stepOp s op) sid := by
  cases op with
  | handle sid2 h2 o =>
      cases hh : handle_hook s sid2 h2 o with
      | error e => simpa [stepOp, hh] using h
      | ok r =>
          simp only [stepOp, hh]
          rcases handle_hook_state hh with h1 | h1 <;> rw [h1]
          · exact h
          · exact not_mem_hooksOf_update h (fun l hl => not_mem_erase_of_not_mem hl)
  | add sid2 h2 =>
      rw [show stepOp s (.add sid2 h2) =
        { s with hooks := updateHooks s.hooks sid2 (fun l => if h2 ∈ l then l else l ++ [h2]) }
        from rfl]
      by_cases hs : sid2 = sid
      · subst hs
        have hne : h2 ≠ hook := fun he => hop (by rw [he])
        apply not_mem_hooksOf_update h
        intro l hl
        by_cases hmem : h2 ∈ l
        · simpa [hmem] using hl
        · rw [if_neg hmem]
          intro hc
          rcases List.mem_append.mp hc with hc | hc
          · exact hl hc
          · exact hne (List.mem_singleton.mp hc).symm
      · exact not_mem_hooksOf_update_ne h (fun he => hs he.symm)
  | remove sid2 h2 =>
      rw [show stepOp s (.remove sid2 h2) =
        { s with hooks := updateHooks s.hooks sid2 (fun l => l.erase h2) } from rfl]
      exact not_mem_hooksOf_update h (fun l hl => not_mem_erase_of_not_mem hl)

/-- A hook absent from its station's list is not invoked by any single
operation. -/
lemma invokes_eq_false {s : ListenerState} {op : LOp} {sid hook : ℕ}
    (h : hook ∉ hooksOf s sid) : invokes s op sid hook = false := by
  cases op with
  | handle sid2 h2 o =>
      by_cases hs : sid2 = sid
      · by_cases hh : h2 = hook
        · subst hs; subst hh
          rcases handle_hook_not_mem (o := o) h with he | he <;> simp [invokes, he]
        · simp [invokes, hh]
      · simp [invokes, hs]
  | add sid2 h2 => rfl
  | remove sid2 h2 => rfl

/-- A hook absent from its station's list is never invoked by an operation
sequence that does not re-add it. -/
lemma invokedDuring_eq_false {sid hook : ℕ} :
    ∀ (ops : List LOp) (s : ListenerState), hook ∉ hooksOf s sid →
      LOp.add sid hook ∉ ops → invokedDuring s sid hook ops = false := by
  intro ops
  induction ops with
  | nil => intro s _ _; rfl
  | cons op rest ih =>
      intro s h hops
      have hop : op ≠ LOp.add sid hook := fun he => hops (by rw [he]; exact List.mem_cons_self _ _)
      have hrest : LOp.add sid hook ∉ rest := fun hm => hops (List.mem_cons_of_mem _ hm)
      simp only [invokedDuring, invokes_eq_false h, Bool.false_or]
      exact ih (stepOp s op) (stepOp_not_mem h hop) hrest

/-! ## Claim theorems about the listener -/

/-- C1, counterexample: in a listener whose only key (station 1) has exactly
one registered hook (7) and whose poll task handle is set, `unregister_hook`
of that last hook returns with the state completely unchanged — the hook is
still in the list (its removal was only scheduled as a task) and in
particular the poll task has not been cancelled at that moment, contradicting
the claim that the call empties the list and cancels the task immediately. -/
theorem c1_counterexample :
    unregister_hook ⟨[("A", 1)], [(1, [7])], true, none, true⟩ "A" 7 =
      .ok (⟨[("A", 1)], [(1, [7])], true, none, true⟩, [ListenerTask.removeHook 1 7])
    ∧ (⟨[("A", 1)], [(1, [7])], true, none, true⟩ : ListenerState).refresh_task = true
    ∧ hooksOf ⟨[("A", 1)], [(1, [7])], true, none, true⟩ 1 = [7] :=
  ⟨by rfl, rfl, by rfl⟩

/-- C1 (amended): `unregister_hook` only schedules the removal — at return the
hook lists are unchanged and the poll task survives unless every hook list was
already empty at call time (`refresh_task` afterwards equals
`refresh_task && anyHooks`); the scheduled `_remove_hook` task erases the hook
when it runs, and once no hooks remain anywhere the poll loop stops itself and
clears its handle at the top of its next iteration, so the zero-hooks/no-task
invariant is restored by the next iteration rather than at the moment of the
call. -/
theorem c1_unregister_deferred (s : ListenerState) (name : String) (hook sid : ℕ)
    (s2 : ListenerState) (sch : List ListenerTask) (t : ListenerState) (now : ℚ)
    (f : FetchOutcome)
    (hname : s.stations.lookup name = some sid)
    (hcall : unregister_hook s name hook = .ok (s2, sch)) :
    s2.hooks = s.hooks
    ∧ s2.refresh_task = (s.refresh_task && anyHooks s)
    ∧ sch = (if hook ∈ hooksOf s sid then [ListenerTask.removeHook sid hook] else [])
    ∧ hooksOf (remove_hook s sid hook) sid = (hooksOf s sid).erase hook
    ∧ (anyHooks t = false → refresh_iter t now f = ({ t with refresh_task := false }, [], false)) := by
  unfold unregister_hook at hcall
  rw [hname] at hcall
  simp only [Except.ok.injEq, Prod.mk.injEq] at hcall
  obtain ⟨h1, h2⟩ := hcall
  refine ⟨?_, ?_, h2.symm, ?_, ?_⟩
  · rw [← h1]
    by_cases ha : anyHooks s <;> simp [ha]
  · rw [← h1]
    by_cases ha : anyHooks s <;> simp [ha]
  · rw [show remove_hook s sid hook =
      { s with hooks := updateHooks s.hooks sid (fun l => l.erase hook) } from rfl]
    rw [hooksOf_update, if_pos rfl]
    cases hl : s.hooks.lookup sid with
    | none => simp [hooksOf, hl]
    | some l => simp [hooksOf, hl]
  · intro ht
    simp [refresh_iter, ht]

/-- C4: once a dispatch of a hook (registered without duplicates, as
registration guarantees) returns true, the hook is removed from that key's
hook list, and no later sequence of dispatches, additions of other hooks and
removals — none of which re-adds this hook for this key — ever invokes it
again for that key. -/
theorem c4_finished_hook_never_reinvoked (s s2 : ListenerState) (sid hook : ℕ)
    (rep : Bool) (ops : List LOp)
    (hdisp : handle_hook s sid hook (.ret true) = .ok (s2, true, rep))
    (hnd : (hooksOf s sid).Nodup)
    (hops : LOp.add sid hook ∉ ops) :
    hook ∉ hooksOf s2 sid ∧ invokedDuring s2 sid hook ops = false := by
  have hrem : hook ∉ hooksOf s2 sid := by
    unfold handle_hook at hdisp
    split at hdisp
    · exact absurd hdisp (by simp)
    · rename_i hlist heq
      split at hdisp
      · split at hdisp
        · simp only [Except.ok.injEq, Prod.mk.injEq] at hdisp
          obtain ⟨hs2, -⟩ := hdisp
          rw [← hs2, hooksOf_update, if_pos rfl, heq]
          have hlnd : hlist.Nodup := by
            rwa [hooksOf, heq] at hnd
          simpa using hlnd.not_mem_erase
        · rename_i hcond
          simp [call_hook] at hcond
      · exact absurd hdisp (by simp)
  exact ⟨hrem, invokedDuring_eq_false ops s2 hrem hops⟩

/-- C5: `register_hook` schedules an immediate single-hook dispatch exactly
when the cached record exists, covers the station, and is younger than
`EXPIRE_TIME` at registration time; and any such immediate dispatch carries
the cached state for that station and no previous state. -/
theorem c5_register_immediate_iff (s : ListenerState) (now : ℚ) (name : String)
    (hook sid : ℕ) (s2 : ListenerState) (tasks : List ListenerTask)
    (hname : s.stations.lookup name = some sid)
    (hcall : register_hook s now name hook = .ok (s2, tasks)) :
    ((∃ d prev, ListenerTask.handleHook sid hook d prev ∈ tasks) ↔
      (∃ r0, s.station_status = some r0 ∧ (r0.data.lookup sid).isSome = true
        ∧ now - r0.time < EXPIRE_TIME))
    ∧ (∀ d prev, ListenerTask.handleHook sid hook d prev ∈ tasks →
        prev = none ∧ s.station_status.bind (fun r0 => r0.data.lookup sid) = some d) := by
  unfold register_hook at hcall
  rw [hname] at hcall
  simp only [Except.ok.injEq, Prod.mk.injEq] at hcall
  obtain ⟨-, h2⟩ := hcall
  subst h2
  cases hss : s.station_status with
  | none =>
      refine ⟨⟨?_, ?_⟩, ?_⟩
      · rintro ⟨d, prev, hmem⟩
        exfalso
        by_cases hr : s.refresh_task <;> simp [hss, hr] at hmem
      · rintro ⟨r1, hr1, -, -⟩
        cases hr1
      · intro d prev hmem
        exfalso
        by_cases hr : s.refresh_task <;> simp [hss, hr] at hmem
  | some r0 =>
      cases hd : r0.data.lookup sid with
      | none =>
          refine ⟨⟨?_, ?_⟩, ?_⟩
          · rintro ⟨d, prev, hmem⟩
            exfalso
            by_cases hr : s.refresh_task <;> simp [hss, hd, hr] at hmem
          · rintro ⟨r1, hr1, hsome, -⟩
            rw [Option.some.injEq] at hr1
            rw [← hr1, hd] at hsome
            cases hsome
          · intro d prev hmem
            exfalso
            by_cases hr : s.refresh_task <;> simp [hss, hd, hr] at hmem
      | some d0 =>
          by_cases hfr : now - r0.time < EXPIRE_TIME
          · refine ⟨⟨?_, ?_⟩, ?_⟩
            · intro _
              exact ⟨r0, rfl, by simp [hd], hfr⟩
            · intro _
              refine ⟨d0, none, ?_⟩
              by_cases hr : s.refresh_task <;> simp [hss, hd, hfr, hr]
            · intro d prev hmem
              have hdp : d = d0 ∧ prev = none := by
                by_cases hr : s.refresh_task <;> simp [hss, hd, hfr, hr] at hmem <;>
                  exact hmem
              refine ⟨hdp.2, ?_⟩
              simp [hd, hdp.1]
          · refine ⟨⟨?_, ?_⟩, ?_⟩
            · rintro ⟨d, prev, hmem⟩
              exfalso
              by_cases hr : s.refresh_task <;> simp [hss, hd, hfr, hr] at hmem
            · rintro ⟨r1, hr1, -, hfr1⟩
              rw [Option.some.injEq] at hr1
              rw [← hr1] at hfr1
              exact absurd hfr1 hfr
            · intro d prev hmem
              exfalso
              by_cases hr : s.refresh_task <;> simp [hss, hd, hfr, hr] at hmem

/-- C6: a hook that raises during dispatch is caught at the dispatch boundary:
the dispatch returns normally with the state unchanged (the hook remains
registered for the key) and the error is reported through the configured
`on_error` sink; and the raise is invisible to the poll loop — dispatches run
as separate tasks whose outcomes are not inputs of the loop, and since the
failing dispatch leaves the listener state untouched, every later poll
iteration behaves exactly as if it had not run, so a raising hook cannot
terminate the loop (only the loop's own conditions — an empty hook table, or
the unrelated previous-snapshot `KeyError` of `listener.py` line 165, see
`spawn_hook_tasks` — can stop it). -/
theorem c6_hook_raise_contained (s : ListenerState) (sid hook : ℕ)
    (hmem : hook ∈ hooksOf s sid) (herr : s.on_error = true) :
    handle_hook s sid hook .raiseExc = .ok (s, true, true)
    ∧ (∀ (s2 : ListenerState) (rep : Bool),
        handle_hook s sid hook .raiseExc = .ok (s2, true, rep) →
        ∀ (now : ℚ) (f : FetchOutcome), refresh_iter s2 now f = refresh_iter s now f) := by
  have h1 : handle_hook s sid hook .raiseExc = .ok (s, true, true) := by
    cases hl : s.hooks.lookup sid with
    | none =>
        rw [hooksOf, hl] at hmem
        simp at hmem
    | some l =>
        have hml : hook ∈ l := by
          rw [hooksOf, hl] at hmem
          simpa using hmem
        simp [handle_hook, hl, hml, call_hook, herr]
  refine ⟨h1, ?_⟩
  intro s2 rep h2 now f
  rw [h1] at h2
  simp only [Except.ok.injEq, Prod.mk.injEq] at h2
  rw [← h2.1]

/-- C8: unregistering, for a registered station name, a hook that was never
registered for it raises no error, schedules nothing, and leaves the hook
lists (and the registry and the cache) unchanged. -/
theorem c8_unregister_unknown_noop (s : ListenerState) (name : String) (hook sid : ℕ)
    (hname : s.stations.lookup name = some sid)
    (hfree : hook ∉ hooksOf s sid) :
    ∃ s2, unregister_hook s name hook = .ok (s2, [])
      ∧ s2.hooks = s.hooks ∧ s2.stations = s.stations
      ∧ s2.station_status = s.station_status := by
  refine ⟨if anyHooks s then s else { s with refresh_task := false }, ?_, ?_, ?_, ?_⟩
  · unfold unregister_hook
    rw [hname]
    simp [hfree]
  · by_cases ha : anyHooks s <;> simp [ha]
  · by_cases ha : anyHooks s <;> simp [ha]
  · by_cases ha : anyHooks s <;> simp [ha]

/-- C10: `get_station_status` never changes the cache when the fetch fails
(whatever its freshness); when the cache is stale a failed fetch propagates
the error, and a successful fetch replaces the cache with the new data
stamped at the current clock. -/
theorem c10_get_station_status_atomic (s : ListenerState) (now : ℚ) :
    (get_station_status s now .fail).1 = s
    ∧ (isFresh s now = false → (get_station_status s now .fail).2 = .error ())
    ∧ (isFresh s now = false → ∀ d, get_station_status s now (.ok d) =
        ({ s with station_status := some ⟨d, now⟩ }, .ok d)) := by
  cases hss : s.station_status with
  | none =>
      refine ⟨by simp [get_station_status, hss], fun _ => by simp [get_station_status, hss],
        fun _ d => by simp [get_station_status, hss]⟩
  | some r0 =>
      by_cases hfr : now - r0.time < EXPIRE_TIME
      · have hfresh : isFresh s now = true := by simp [isFresh, hss, hfr]
        refine ⟨by simp [get_station_status, hss, hfr], ?_, ?_⟩
        · intro hq
          rw [hfresh] at hq
          cases hq
        · intro hq
          rw [hfresh] at hq
          cases hq
      · refine ⟨by simp [get_station_status, hss, hfr], fun _ => by
          simp [get_station_status, hss, hfr], fun _ d => by
          simp [get_station_status, hss, hfr]⟩

/-- C1, witness: the amended statement evaluated on a one-station listener
with one hook. -/
theorem c1_witness :
    (⟨[("A", 1)], [(1, [7])], true, none, true⟩ : ListenerState).refresh_task =
      ((⟨[("A", 1)], [(1, [7])], true, none, true⟩ : ListenerState).refresh_task
        && anyHooks ⟨[("A", 1)], [(1, [7])], true, none, true⟩)
    ∧ hooksOf (remove_hook ⟨[("A", 1)], [(1, [7])], true, none, true⟩ 1 7) 1 =
        (hooksOf ⟨[("A", 1)], [(1, [7])], true, none, true⟩ 1).erase 7
    ∧ refresh_iter ⟨[("A", 1)], [(1, [])], true, none, true⟩ 0 .fail =
        (⟨[("A", 1)], [(1, [])], false, none, true⟩, [], false) := by
  have h := c1_unregister_deferred ⟨[("A", 1)], [(1, [7])], true, none, true⟩ "A" 7 1
    ⟨[("A", 1)], [(1, [7])], true, none, true⟩ [ListenerTask.removeHook 1 7]
    ⟨[("A", 1)], [(1, [])], true, none, true⟩ 0 .fail (by rfl) (by rfl)
  exact ⟨h.2.1, h.2.2.2.1, h.2.2.2.2 (by rfl)⟩

/-- C4, witness: hook 7 of station 1 reports finished; afterwards it is gone
from the list and a further dispatch does not invoke it. -/
theorem c4_witness :
    7 ∉ hooksOf ⟨[("A", 1)], [(1, [])], true, none, true⟩ 1
    ∧ invokedDuring ⟨[("A", 1)], [(1, [])], true, none, true⟩ 1 7
        [LOp.handle 1 7 (.ret true)] = false :=
  c4_finished_hook_never_reinvoked ⟨[("A", 1)], [(1, [7])], true, none, true⟩
    ⟨[("A", 1)], [(1, [])], true, none, true⟩ 1 7 false [LOp.handle 1 7 (.ret true)]
    (by rfl) (by decide) (by decide)

/-- C5, witness: with a cached record for station 1 aged 10 (younger than
`EXPIRE_TIME`), registering hook 7 schedules the immediate dispatch carrying
the cached value 42 and no previous state. -/
theorem c5_witness :
    (∃ d prev, ListenerTask.handleHook 1 7 d prev ∈
      [ListenerTask.addHook 1 7, ListenerTask.handleHook 1 7 42 none, ListenerTask.refreshLoop])
    ∧ ((none : Option ℕ) = none
      ∧ (Option.some (⟨[(1, 42)], 0⟩ : StationRecord)).bind
          (fun r0 => r0.data.lookup 1) = some 42) := by
  have h := c5_register_immediate_iff ⟨[("A", 1)], [(1, [])], false, some ⟨[(1, 42)], 0⟩, true⟩
    10 "A" 7 1 ⟨[("A", 1)], [(1, [])], true, some ⟨[(1, 42)], 0⟩, true⟩
    [ListenerTask.addHook 1 7, ListenerTask.handleHook 1 7 42 none, ListenerTask.refreshLoop]
    (by rfl) (by norm_num [register_hook, EXPIRE_TIME])
  exact ⟨h.1.mpr ⟨⟨[(1, 42)], 0⟩, rfl, by rfl, by norm_num [EXPIRE_TIME]⟩,
    h.2 42 none (by simp)⟩

/-- C6, witness: hook 7 of station 1 raises; the dispatch returns normally,
reports the error, keeps the state, and a later poll iteration is the same as
if the failing dispatch had not run. -/
theorem c6_witness :
    handle_hook ⟨[("A", 1)], [(1, [7])], true, none, true⟩ 1 7 .raiseExc =
      .ok (⟨[("A", 1)], [(1, [7])], true, none, true⟩, true, true)
    ∧ refresh_iter ⟨[("A", 1)], [(1, [7])], true, none, true⟩ 0 .fail =
        refresh_iter ⟨[("A", 1)], [(1, [7])], true, none, true⟩ 0 .fail := by
  have h := c6_hook_raise_contained ⟨[("A", 1)], [(1, [7])], true, none, true⟩ 1 7
    (by decide) (by rfl)
  exact ⟨h.1, h.2 _ true h.1 0 .fail⟩

/-- C8, witness: unregistering the never-registered hook 9 for station 1. -/
theorem c8_witness :
    ∃ s2, unregister_hook ⟨[("A", 1)], [(1, [7])], true, none, true⟩ "A" 9 = .ok (s2, [])
      ∧ s2.hooks = (⟨[("A", 1)], [(1, [7])], true, none, true⟩ : ListenerState).hooks
      ∧ s2.stations = (⟨[("A", 1)], [(1, [7])], true, none, true⟩ : ListenerState).stations
      ∧ s2.station_status =
          (⟨[("A", 1)], [(1, [7])], true, none, true⟩ : ListenerState).station_status :=
  c8_unregister_unknown_noop ⟨[("A", 1)], [(1, [7])], true, none, true⟩ "A" 9 1
    (by rfl) (by decide)

/-- C10, witness: with an empty cache (hence stale), a failing fetch leaves
the state unchanged and propagates the error; a successful fetch installs the
new record. -/
theorem c10_witness :
    (get_station_status ⟨[("A", 1)], [(1, [7])], true, none, true⟩ 0 .fail).1 =
      ⟨[("A", 1)], [(1, [7])], true, none, true⟩
    ∧ (get_station_status ⟨[("A", 1)], [(1, [7])], true, none, true⟩ 0 .fail).2 = .error ()
    ∧ get_station_status ⟨[("A", 1)], [(1, [7])], true, none, true⟩ 0 (.ok [(1, 5)]) =
        (⟨[("A", 1)], [(1, [7])], true, some ⟨[(1, 5)], 0⟩, true⟩, .ok [(1, 5)]) := by
  have h := c10_get_station_status_atomic ⟨[("A", 1)], [(1, [7])], true, none, true⟩ 0
  exact ⟨h.1, h.2.1 (by rfl), h.2.2 (by rfl) [(1, 5)]⟩

/-! ## Helper lemmas about the controller -/

lemma ensure_rate_limit_error_count (s : CtrlState) (c : ℚ) :
    (ensure_rate_limit s c).1.error_count = s.error_count := rfl

lemma ensure_rate_limit_token (s : CtrlState) (c : ℚ) :
    (ensure_rate_limit s c).1.token = s.token := rfl

lemma ensure_login_error_count (s : CtrlState) (c : ℚ) :
    (ensure_login s c).1.error_count = s.error_count := by
  unfold ensure_login
  cases s.token with
  | none => rfl
  | some u => by_cases h : RELOGIN_INTERVAL < c - s.login_time <;> simp [h]

lemma ensure_login_token (s : CtrlState) (c : ℚ) :
    (ensure_login s c).1.token = some () := by
  unfold ensure_login
  cases htk : s.token with
  | none => rfl
  | some u =>
      cases u
      by_cases h : RELOGIN_INTERVAL < c - s.login_time <;> simp [h, htk]

lemma ensure_login_exchange (s : CtrlState) (c : ℚ) (h : s.token = none) :
    Ev.loginExchange ∈ (ensure_login s c).2 := by
  unfold ensure_login
  rw [h]
  simp

lemma filter_isPhase_rate (s : CtrlState) (c : ℚ) :
    (ensure_rate_limit s c).2.2.filter isPhase = [Ev.lockAcquire] := by
  unfold ensure_rate_limit
  by_cases hw : MAX_REQUESTS_PER_MINUTE ≤ (pruneWindow s.request_times c).length <;>
    by_cases hg : 0 < gapSleep (pruneWindow s.request_times c) c <;>
      simp [hw, hg, isPhase, List.filter_append]

lemma filter_isPhase_login (s : CtrlState) (c : ℚ) :
    (ensure_login s c).2.filter isPhase = [Ev.checkToken] := by
  unfold ensure_login
  cases s.token with
  | none => simp [isPhase]
  | some u =>
      by_cases h : RELOGIN_INTERVAL < c - s.login_time <;> simp [h, isPhase]

/-! ## Claim theorems about the controller -/

/-- C3, counterexample: with four consecutive errors already recorded and a
live session, a fifth failing call drives the counter to 5 and invalidates the
token, but the counter is not reset: it stays at 5 instead of returning to 0,
contradicting "the counter resets" at that point. -/
theorem c3_counterexample :
    (get_station_info ⟨some (), 0, [], 4⟩ 0 (.error ())).1.error_count = 5
    ∧ (get_station_info ⟨some (), 0, [], 4⟩ 0 (.error ())).1.token = none
    ∧ ¬(get_station_info ⟨some (), 0, [], 4⟩ 0 (.error ())).1.error_count = 0 := by
  norm_num [get_station_info, ensure_rate_limit, ensure_login, pruneWindow, windowSleep,
    gapSleep, MAX_REQUESTS_PER_MINUTE, MIN_REQUEST_INTERVAL, RELOGIN_INTERVAL]

/-- C3 (amended): each failed `get_station_info` call increments the
consecutive-error counter; whenever the incremented counter is at least 5 —
i.e. from the fifth consecutive failure onward, the counter never being reset
on failure — the session token is invalidated, so the next call performs a
fresh login exchange regardless of session age; below 5 the session installed
by `ensure_login` is kept; each success resets the counter to 0; and the
underlying error or data is always returned to the caller. -/
theorem c3_error_counter (s : CtrlState) (c : ℚ) (d : ℕ) :
    ((get_station_info s c (.error ())).1.error_count = s.error_count + 1
      ∧ (5 ≤ s.error_count + 1 → (get_station_info s c (.error ())).1.token = none)
      ∧ (s.error_count + 1 < 5 → (get_station_info s c (.error ())).1.token = some ())
      ∧ (get_station_info s c (.error ())).2.2.2 = .error ())
    ∧ ((get_station_info s c (.ok d)).1.error_count = 0
      ∧ (get_station_info s c (.ok d)).2.2.2 = .ok d)
    ∧ (s.token = none → Ev.loginExchange ∈ (get_station_info s c (.error ())).2.2.1) := by
  refine ⟨⟨?_, ?_, ?_, ?_⟩, ⟨?_, ?_⟩, ?_⟩
  · simp [get_station_info, ensure_login_error_count, ensure_rate_limit_error_count]
  · intro h
    simp only [get_station_info]
    rw [show ((ensure_login (ensure_rate_limit s c).1 (ensure_rate_limit s c).2.1).1.error_count)
      = s.error_count from by rw [ensure_login_error_count, ensure_rate_limit_error_count]]
    simp [h]
  · intro h
    simp only [get_station_info]
    rw [show ((ensure_login (ensure_rate_limit s c).1 (ensure_rate_limit s c).2.1).1.error_count)
      = s.error_count from by rw [ensure_login_error_count, ensure_rate_limit_error_count]]
    simp [Nat.not_le.mpr h, ensure_login_token]
  · simp [get_station_info]
  · simp [get_station_info]
  · simp [get_station_info]
  · intro h
    simp only [get_station_info]
    have : (ensure_rate_limit s c).1.token = none := by rw [ensure_rate_limit_token, h]
    simp [ensure_login_exchange _ _ this]

/-- C3, witness: the amended statement at a controller with one prior error
and no session. -/
theorem c3_witness :
    ((get_station_info ⟨none, 0, [], 1⟩ 0 (.error ())).1.token = some ()
    ∧ Ev.loginExchange ∈ (get_station_info ⟨none, 0, [], 1⟩ 0 (.error ())).2.2.1) := by
  have h := c3_error_counter ⟨none, 0, [], 1⟩ 0 0
  exact ⟨h.1.2.2.1 (by norm_num), h.2.2 (by rfl)⟩

/-- C7 (amended): `get_station_info` runs the rate-limit throttle, then the
authentication check, then the upstream call; `get_stations` instead runs the
authentication check first, then the throttle, then the upstream call —
restricting each event trace to the three phase markers yields exactly these
orders for every state, clock and outcome. -/
theorem c7_phase_order (s : CtrlState) (c : ℚ) (o : Except Unit ℕ)
    (s2 : CtrlState) (c2 : ℚ) :
    (get_station_info s c o).2.2.1.filter isPhase =
      [Ev.lockAcquire, Ev.checkToken, Ev.upstreamCall]
    ∧ (get_stations s2 c2).2.2.filter isPhase =
      [Ev.checkToken, Ev.lockAcquire, Ev.upstreamCall] := by
  constructor
  · cases o <;>
      simp [get_station_info, List.filter_append, filter_isPhase_rate, filter_isPhase_login,
        isPhase]
  · simp [get_stations, List.filter_append, filter_isPhase_rate, filter_isPhase_login, isPhase]

/-- C7, counterexample: on a fresh controller, the phase order of
`get_stations` is authentication check before throttle, not throttle first as
claimed. -/
theorem c7_counterexample :
    (get_stations initController 0).2.2.filter isPhase =
      [Ev.checkToken, Ev.lockAcquire, Ev.upstreamCall]
    ∧ [Ev.checkToken, Ev.lockAcquire, Ev.upstreamCall] ≠
      [Ev.lockAcquire, Ev.checkToken, Ev.upstreamCall] := by
  constructor
  · simp [get_stations, List.filter_append, filter_isPhase_rate, filter_isPhase_login, isPhase]
  · decide

/-- C9 (amended): the whole throttle body — the window check, the gap check,
and both blocking sleeps — runs inside one critical section: the trace is the
lock acquisition, then a middle section containing no lock events in which
each check occurs exactly once (so nothing is re-checked after a sleep), then
the lock release that only happens after the request time is recorded. -/
theorem c9_single_critical_section (s : CtrlState) (c : ℚ) :
    ∃ mid, (ensure_rate_limit s c).2.2 = Ev.lockAcquire :: mid ++ [Ev.lockRelease]
      ∧ Ev.lockAcquire ∉ mid ∧ Ev.lockRelease ∉ mid
      ∧ mid.countP isCheckWindow = 1 ∧ mid.countP isCheckGap = 1 := by
  refine ⟨[Ev.checkWindow]
      ++ (if MAX_REQUESTS_PER_MINUTE ≤ (pruneWindow s.request_times c).length
          then [Ev.sleep (windowSleep (pruneWindow s.request_times c) c)] else [])
      ++ [Ev.checkGap]
      ++ (if 0 < gapSleep (pruneWindow s.request_times c) c
          then [Ev.sleep (gapSleep (pruneWindow s.request_times c) c)] else [])
      ++ [Ev.recordRequest (c + windowSleep (pruneWindow s.request_times c) c
            + gapSleep (pruneWindow s.request_times c) c)], ?_, ?_, ?_, ?_, ?_⟩
  · unfold ensure_rate_limit
    simp
  · split <;> split <;> simp
  · split <;> split <;> simp
  · split <;> split <;> simp [isCheckWindow]
  · split <;> split <;> simp [isCheckGap]

/-- C9, counterexample: entered with window `[0]` at clock 1 the throttle
emits a blocking sleep of 4 seconds with no lock release before it — the wait
happens while the critical section is held — and after the sleep no window or
gap condition is evaluated again. -/
theorem c9_counterexample :
    (ensure_rate_limit ⟨none, -86400, [0], 0⟩ 1).2.2 =
      [Ev.lockAcquire, Ev.checkWindow, Ev.checkGap, Ev.sleep 4, Ev.recordRequest 5,
        Ev.lockRelease]
    ∧ ([Ev.lockAcquire, Ev.checkWindow, Ev.checkGap] : List Ev).countP isLockRelease = 0
    ∧ ([Ev.recordRequest 5, Ev.lockRelease] : List Ev).countP isCheckWindow = 0
    ∧ ([Ev.recordRequest 5, Ev.lockRelease] : List Ev).countP isCheckGap = 0 := by
  refine ⟨?_, by decide, by decide, by decide⟩
  norm_num [ensure_rate_limit, pruneWindow, windowSleep, gapSleep, MAX_REQUESTS_PER_MINUTE,
    MIN_REQUEST_INTERVAL]

/-! ## The sliding-window invariant of the rate limiter -/

lemma headI_mem {l : List ℚ} (h : l ≠ []) : l.headI ∈ l := by
  cases l with
  | nil => exact absurd rfl h
  | cons a t => exact List.mem_cons_self _ _

lemma windowSleep_nonneg (times : List ℚ) (c : ℚ) :
    0 ≤ windowSleep (pruneWindow times c) c := by
  unfold windowSleep
  split
  · rename_i hlen
    have hne : pruneWindow times c ≠ [] := by
      intro he
      rw [he] at hlen
      simp [MAX_REQUESTS_PER_MINUTE] at hlen
    have hmem := headI_mem hne
    have hlt : c - (pruneWindow times c).headI < 60 := by
      unfold pruneWindow at hmem
      have := List.mem_filter.mp hmem
      simpa using this.2
    linarith
  · exact le_refl 0

lemma pruneWindow_concat_keep (l : List ℚ) (b c : ℚ) (h : c - b < 60) :
    pruneWindow (l ++ [b]) c = pruneWindow l c ++ [b] := by
  unfold pruneWindow
  rw [List.filter_append]
  simp [h]

lemma gapSleep_concat (pl : List ℚ) (b c : ℚ) :
    gapSleep (pl ++ [b]) c =
      if c - b < MIN_REQUEST_INTERVAL then MIN_REQUEST_INTERVAL - (c - b) else 0 := by
  unfold gapSleep
  rw [List.getLast?_concat]

lemma pruneWindow_concat_drop (l : List ℚ) (b c : ℚ)
    (hch : List.Chain' Gap (l ++ [b])) (h : ¬(c - b < 60)) :
    pruneWindow (l ++ [b]) c = [] := by
  have hpw : List.Pairwise Gap (l ++ [b]) := List.chain'_iff_pairwise.mp hch
  have hall : ∀ x ∈ l, Gap x b := fun x hx =>
    (List.pairwise_append.mp hpw).2.2 x hx b (by simp)
  unfold pruneWindow
  rw [List.filter_eq_nil_iff]
  intro a ha
  simp only [decide_eq_true_eq, not_lt]
  rcases List.mem_append.mp ha with ha | ha
  · have hg := hall a ha
    unfold Gap MIN_REQUEST_INTERVAL at hg
    linarith [not_lt.mp h]
  · have hab : a = b := by simpa using ha
    subst hab
    linarith [not_lt.mp h]

/-- One throttle body appends a begin time at least `MIN_REQUEST_INTERVAL`
after the previous one and keeps the window a gap-chain ending in the new
begin time. -/
lemma rate_limit_step (s : CtrlState) (c b : ℚ) (l : List ℚ)
    (hs : s.request_times = l ++ [b]) (hch : List.Chain' Gap (l ++ [b])) :
    ∃ l2, (ensure_rate_limit s c).1.request_times = l2 ++ [(ensure_rate_limit s c).2.1]
      ∧ List.Chain' Gap (l2 ++ [(ensure_rate_limit s c).2.1])
      ∧ Gap b (ensure_rate_limit s c).2.1 := by
  have hw : 0 ≤ windowSleep (pruneWindow s.request_times c) c := windowSleep_nonneg _ _
  have h21 : (ensure_rate_limit s c).2.1 =
      c + windowSleep (pruneWindow s.request_times c) c
        + gapSleep (pruneWindow s.request_times c) c := rfl
  have h11 : (ensure_rate_limit s c).1.request_times =
      pruneWindow s.request_times c ++ [(ensure_rate_limit s c).2.1] := rfl
  by_cases hc : c - b < 60
  · have hpr : pruneWindow s.request_times c = pruneWindow l c ++ [b] := by
      rw [hs]
      exact pruneWindow_concat_keep l b c hc
    rw [hpr] at hw
    have hgb : Gap b (ensure_rate_limit s c).2.1 := by
      rw [h21, hpr, gapSleep_concat]
      unfold Gap
      by_cases hgap : c - b < MIN_REQUEST_INTERVAL
      · rw [if_pos hgap]
        unfold MIN_REQUEST_INTERVAL
        linarith
      · rw [if_neg hgap]
        push_neg at hgap
        unfold MIN_REQUEST_INTERVAL at hgap ⊢
        linarith
    refine ⟨pruneWindow l c ++ [b], ?_, ?_, hgb⟩
    · rw [h11, hpr]
    · apply List.Chain'.append
      · rw [← hpr, hs]
        unfold pruneWindow
        exact hch.sublist (List.filter_sublist _)
      · exact List.chain'_singleton _
      · intro x hx y hy
        rw [List.getLast?_concat, Option.mem_def, Option.some.injEq] at hx
        simp only [List.head?_cons, Option.mem_def, Option.some.injEq] at hy
        rw [← hx, ← hy]
        exact hgb
  · have hpr : pruneWindow s.request_times c = [] := by
      rw [hs]
      exact pruneWindow_concat_drop l b c hch hc
    have hgb : Gap b (ensure_rate_limit s c).2.1 := by
      rw [h21, hpr]
      unfold windowSleep gapSleep Gap
      simp only [List.length_nil, List.getLast?_nil]
      rw [if_neg (by simp [MAX_REQUESTS_PER_MINUTE])]
      unfold MIN_REQUEST_INTERVAL
      linarith [not_lt.mp hc]
    refine ⟨[], ?_, by simp, hgb⟩
    rw [h11, hpr]

lemma runRateLimit_chain_aux :
    ∀ (cs : List ℚ) (s : CtrlState) (l : List ℚ) (b : ℚ),
      s.request_times = l ++ [b] → List.Chain' Gap (l ++ [b]) →
      List.Chain' Gap (b :: runRateLimit s cs) := by
  intro cs
  induction cs with
  | nil =>
      intro s l b _ _
      simp [runRateLimit]
  | cons c cs ih =>
      intro s l b hs hch
      obtain ⟨l2, h1, h2, h3⟩ := rate_limit_step s c b l hs hch
      have hrun : runRateLimit s (c :: cs) =
          (ensure_rate_limit s c).2.1 :: runRateLimit (ensure_rate_limit s c).1 cs := rfl
      rw [hrun]
      exact List.chain'_cons.mpr ⟨h3, ih _ l2 _ h1 h2⟩

/-- Starting from an empty window, the recorded begin times form a gap-chain:
consecutive requests begin at least `MIN_REQUEST_INTERVAL` apart. -/
lemma runRateLimit_chain (cs : List ℚ) (s : CtrlState) (hs : s.request_times = []) :
    List.Chain' Gap (runRateLimit s cs) := by
  cases cs with
  | nil => simp [runRateLimit]
  | cons c cs =>
      have h1 : (ensure_rate_limit s c).1.request_times =
          [] ++ [(ensure_rate_limit s c).2.1] := by
        have h11 : (ensure_rate_limit s c).1.request_times =
            pruneWindow s.request_times c ++ [(ensure_rate_limit s c).2.1] := rfl
        rw [h11, hs]
        rfl
      have h2 : List.Chain' Gap ([] ++ [(ensure_rate_limit s c).2.1]) := by simp
      exact runRateLimit_chain_aux cs (ensure_rate_limit s c).1 [] _ h1 h2

/-- Along a gap-chain, the element `k` positions later is at least
`MIN_REQUEST_INTERVAL * k` larger. -/
lemma chain_gap_getD (l : List ℚ) (h : List.Chain' Gap l) (i : ℕ) :
    ∀ (k : ℕ), i + k < l.length →
      l.getD i 0 + MIN_REQUEST_INTERVAL * (k : ℚ) ≤ l.getD (i + k) 0 := by
  have hget : ∀ (n : ℕ) (hn : n < l.length), l.getD n 0 = l.get ⟨n, hn⟩ := by
    intro n hn
    rw [List.getD_eq_getElem?_getD, List.getElem?_eq_getElem hn]
    rfl
  intro k
  induction k with
  | zero =>
      intro _
      simp
  | succ k ih =>
      intro hik
      have hik2 : i + k < l.length := by omega
      have hbase := ih hik2
      have hstep := List.chain'_iff_get.mp h (i + k) (by omega)
      unfold Gap at hstep
      rw [hget (i + k) hik2] at hbase
      rw [show i + (k + 1) = (i + k) + 1 from rfl, hget ((i + k) + 1) hik]
      push_cast
      have hmin : (0:ℚ) ≤ MIN_REQUEST_INTERVAL := by
        unfold MIN_REQUEST_INTERVAL
        norm_num
      nlinarith [hbase, hstep]

/-- A gap-chain has at most `MAX_REQUESTS_PER_MINUTE` members in any interval
`(T - 60, T]`: sixteen chained members would span at least 75 seconds. -/
lemma window_count_le (l : List ℚ) (hch : List.Chain' Gap l) (T : ℚ) :
    (l.filter (fun x => decide (T - 60 < x ∧ x ≤ T))).length ≤ MAX_REQUESTS_PER_MINUTE := by
  by_contra hlen
  push_neg at hlen
  generalize hw : l.filter (fun x => decide (T - 60 < x ∧ x ≤ T)) = w at hlen
  have hchw : List.Chain' Gap w := hw ▸ hch.sublist (List.filter_sublist _)
  have h16 : 0 + 15 < w.length := by
    unfold MAX_REQUESTS_PER_MINUTE at hlen
    omega
  have hgap := chain_gap_getD w hchw 0 15 h16
  rw [show MIN_REQUEST_INTERVAL * ((15 : ℕ) : ℚ) = 75 from by
    norm_num [MIN_REQUEST_INTERVAL]] at hgap
  have hget : ∀ (n : ℕ) (hn : n < w.length), w.getD n 0 = w.get ⟨n, hn⟩ := by
    intro n hn
    rw [List.getD_eq_getElem?_getD, List.getElem?_eq_getElem hn]
    rfl
  have hmem0 : w.getD 0 0 ∈ w := by
    rw [hget 0 (by omega)]
    exact List.get_mem _ _ _
  have hmem15 : w.getD 15 0 ∈ w := by
    rw [hget 15 (by omega)]
    exact List.get_mem _ _ _
  have hmem0f : w.getD 0 0 ∈ l.filter (fun x => decide (T - 60 < x ∧ x ≤ T)) := by
    rw [hw]
    exact hmem0
  have hmem15f : w.getD 15 0 ∈ l.filter (fun x => decide (T - 60 < x ∧ x ≤ T)) := by
    rw [hw]
    exact hmem15
  have hp0 : T - 60 < w.getD 0 0 ∧ w.getD 0 0 ≤ T :=
    of_decide_eq_true (List.mem_filter.mp hmem0f).2
  have hp15 : T - 60 < w.getD 15 0 ∧ w.getD 15 0 ≤ T :=
    of_decide_eq_true (List.mem_filter.mp hmem15f).2
  simp only [Nat.zero_add] at hgap
  linarith [hgap, hp0.1, hp15.2]

/-- C2: for every sequence of entries into the rate limiter (serialised by its
lock, whose bodies complete in order — see the C9 theorems), the recorded
begin times satisfy: consecutive begins are at least `MIN_REQUEST_INTERVAL`
(5 s) apart; a begin and the one 15 requests later are at least 60 s apart (so
the 16th of 16 quick-succession requests begins no sooner than 60 s after the
1st); and no window of the form `(T - 60, T]` contains more than
`MAX_REQUESTS_PER_MINUTE` (15) begin times. -/
theorem c2_rate_limit (cs : List ℚ) :
    List.Chain' Gap (runRateLimit initController cs)
    ∧ (∀ i : ℕ, i + 15 < (runRateLimit initController cs).length →
        (runRateLimit initController cs).getD i 0 + 60 ≤
          (runRateLimit initController cs).getD (i + 15) 0)
    ∧ (∀ T : ℚ, ((runRateLimit initController cs).filter
        (fun x => decide (T - 60 < x ∧ x ≤ T))).length ≤ MAX_REQUESTS_PER_MINUTE) := by
  have hch := runRateLimit_chain cs initController rfl
  refine ⟨hch, ?_, ?_⟩
  · intro i hi
    have hg := chain_gap_getD _ hch i 15 hi
    rw [show MIN_REQUEST_INTERVAL * ((15 : ℕ) : ℚ) = 75 from by
      norm_num [MIN_REQUEST_INTERVAL]] at hg
    linarith
  · intro T
    exact window_count_le _ hch T

/-- C2, witness: sixteen entries spaced well apart give sixteen begin times;
the first and the sixteenth are at least 60 s apart. -/
theorem c2_witness :
    (runRateLimit initController
        [0, 100, 200, 300, 400, 500, 600, 700, 800, 900, 1000, 1100, 1200, 1300, 1400,
          1500]).getD 0 0 + 60 ≤
      (runRateLimit initController
        [0, 100, 200, 300, 400, 500, 600, 700, 800, 900, 1000, 1100, 1200, 1300, 1400,
          1500]).getD (0 + 15) 0 := by
  have hlen : ∀ (s : CtrlState) (cs : List ℚ), (runRateLimit s cs).length = cs.length := by
    intro s cs
    induction cs generalizing s with
    | nil => rfl
    | cons c cs ih => simp [runRateLimit, ih]
  exact (c2_rate_limit _).2.1 0 (by rw [hlen]; norm_num)

end CQTCharge
